import Mathlib

/-!
# Verification of the PROXY protocol v2 preamble decoder

Shallow embedding of the PPv2 preamble decoder (`checkSignature` and the
preamble-processing portion of `handle`) of this repository, together with
proofs of the specified properties.

Modelling choices:
* Bytes are `Nat`s; the Go byte operations `b >> 4`, `b & 0x0F` and
  `binary.BigEndian.Uint16` become `b / 16`, `b % 16` and `hi * 256 + lo`.
* The connection (`net.Conn` after `SetReadDeadline`) is a `Conn`: the list
  of bytes the stream will deliver, plus the terminal condition that a read
  reaching past the delivered bytes observes — `eof` when the peer closed the
  stream, or `timeout` when the read deadline expires first.  `io.ReadFull`
  over such a stream either returns the requested bytes or fails with that
  terminal error (`io.ErrUnexpectedEOF` resp. `os.ErrDeadlineExceeded`).
* Each exit path of `handle` surfaces a distinct `DecodeError` constructor,
  mirroring the distinct log-and-return branches of the source; the read
  failure branches carry the underlying read error (the `%v` the source
  logs), which is where the EOF/timeout distinction lives.
* `net.IP` values are their raw octet lists (4 octets for `net.IPv4`,
  16 for an IPv6 `net.IP`).
All functions are structurally recursive Lean definitions, hence total:
no decode can panic or read out of bounds.
-/

/-- Outcome a read observes when the stream cannot deliver the requested
bytes: the peer closed the connection (`io.ErrUnexpectedEOF`), or the
read deadline set at the top of `handle` expired (`os.ErrDeadlineExceeded`,
a timeout error). -/
inductive ReadErr where
  | eof
  | timeout
deriving Repr, DecidableEq

/-- A connection's incoming byte stream: the bytes it will deliver before
the terminal condition, and that terminal condition. -/
structure Conn where
  data : List Nat
  terminal : ReadErr
deriving Repr, DecidableEq

/-- `io.ReadFull conn buf` for a buffer of length `n`: returns exactly `n`
bytes and the advanced stream, or fails with the stream's terminal error
(short reads surface `io.ErrUnexpectedEOF`; an expired deadline surfaces a
timeout error). -/
def readFull (c : Conn) (n : Nat) : Except ReadErr (List Nat × Conn) :=
  if n ≤ c.data.length then
    .ok (c.data.take n, ⟨c.data.drop n, c.terminal⟩)
  else
    .error c.terminal

/-- `ppv2Signature`: the 12-byte signature for Proxy Protocol v2. -/
def ppv2Signature : List Nat :=
  [0x0D, 0x0A, 0x0D, 0x0A, 0x00, 0x0D, 0x0A, 0x51, 0x52, 0x4F, 0x54, 0x0A]

/-- `checkSignature` compares the first 12 bytes with the known PPv2
signature: a length mismatch returns `false`, otherwise the bytes are
compared index by index. -/
def checkSignature (sig : List Nat) : Bool :=
  if sig.length ≠ ppv2Signature.length then
    false
  else
    (sig.zip ppv2Signature).all fun p => p.1 == p.2

/-- Decoded endpoint information extracted from the address block
(`srcIP`, `dstIP`, `srcPort`, `dstPort` in `handle`).  IPs are raw octet
lists: 4 octets for IPv4, 16 for IPv6. -/
structure Endpoints where
  sourceIP : List Nat
  destinationIP : List Nat
  sourcePort : Nat
  destinationPort : Nat
deriving Repr, DecidableEq

/-- One constructor per log-and-return exit path of `handle`; the two read
failures carry the logged read error, which distinguishes an incomplete
read (EOF) from a deadline expiry (timeout). -/
inductive DecodeError where
  /-- "Error reading initial header": the stream failed before 16 header
  bytes arrived; `.eof` is the spec's `IncompleteHeader`, `.timeout` its
  `Timeout` while awaiting the fixed header. -/
  | headerRead (e : ReadErr)
  /-- "No valid Proxy Protocol v2 signature detected". -/
  | signatureMismatch
  /-- "Unsupported Proxy Protocol version": the version nibble. -/
  | unsupportedVersion (v : Nat)
  /-- "Command is %d, not PROXY": the command nibble. -/
  | unsupportedCommand (c : Nat)
  /-- "Error reading address block": `.eof` is the spec's
  `IncompleteAddressBlock`, `.timeout` its `Timeout` while awaiting the
  address block. -/
  | addressRead (e : ReadErr)
  /-- "Not enough data for IPv4/IPv6 address block": the spec's
  `TruncatedAddressBlock`; carries the family nibble. -/
  | truncatedAddress (family : Nat)
  /-- "Unrecognized address family": the spec's `UnknownAddressFamily`;
  carries the family nibble. -/
  | unknownFamily (family : Nat)
deriving Repr, DecidableEq

/-- Big-endian 16-bit read (`binary.BigEndian.Uint16`). -/
def be16 (hi lo : Nat) : Nat := hi * 256 + lo

/-- Step 6 of `handle`: the `switch family` over the address block
(`family` is the high nibble of the family/protocol byte; `raw2` the
stream positioned after the address block, passed through on success). -/
def decodeAddress (family : Nat) (addrBlock : List Nat) (raw2 : Conn) :
    Except DecodeError (Endpoints × Conn) :=
  if family = 0x1 then
    -- IPv4
    if addrBlock.length < 12 then
      .error (.truncatedAddress family)
    else
      .ok (⟨addrBlock.take 4, (addrBlock.drop 4).take 4,
            be16 (addrBlock.getD 8 0) (addrBlock.getD 9 0),
            be16 (addrBlock.getD 10 0) (addrBlock.getD 11 0)⟩,
           raw2)
  else if family = 0x2 then
    -- IPv6
    if addrBlock.length < 36 then
      .error (.truncatedAddress family)
    else
      .ok (⟨addrBlock.take 16, (addrBlock.drop 16).take 16,
            be16 (addrBlock.getD 32 0) (addrBlock.getD 33 0),
            be16 (addrBlock.getD 34 0) (addrBlock.getD 35 0)⟩,
           raw2)
  else
    .error (.unknownFamily family)

/-- The preamble-processing portion of `handle` (everything up to the point
where the decoded endpoints are established and the rest of the connection
is application data).  On success it returns the decoded `Endpoints` and
the stream positioned after the consumed preamble. -/
def handle (raw : Conn) : Except DecodeError (Endpoints × Conn) :=
  -- 1. Read the first 16 bytes for the PPv2 header
  match readFull raw 16 with
  | .error e => .error (.headerRead e)
  | .ok (header, raw1) =>
    -- 2. Check the 12-byte signature
    if ¬ checkSignature (header.take 12) then
      .error .signatureMismatch
    else
      -- 3. Parse version/command byte (header[12]) and family/protocol
      --    byte (header[13])
      let verCmd := header.getD 12 0
      let famProto := header.getD 13 0
      let version := verCmd / 16
      if version ≠ 2 then
        .error (.unsupportedVersion version)
      else
        let cmd := verCmd % 16
        if cmd ≠ 1 then
          .error (.unsupportedCommand cmd)
        else
          -- 4. Extract address length (big-endian header[14:16])
          let addrLen := be16 (header.getD 14 0) (header.getD 15 0)
          -- 5. Read the address block
          match readFull raw1 addrLen with
          | .error e => .error (.addressRead e)
          | .ok (addrBlock, raw2) =>
            -- 6. Parse IP addresses based on famProto
            decodeAddress (famProto / 16) addrBlock raw2

/-- The 16-byte fixed header for given version/command byte,
family/protocol byte and big-endian address length (wire format of §6). -/
def mkFixedHeader (verCmd famProto addrLen : Nat) : List Nat :=
  ppv2Signature ++ [verCmd, famProto, addrLen / 256, addrLen % 256]

/-- Big-endian bytes of a 16-bit value. -/
def be16Bytes (v : Nat) : List Nat := [v / 256, v % 256]

/-- Encode IPv4 endpoints as a full PPv2 preamble: fixed header with
version 2, command PROXY, family IPv4, protocol STREAM, length 12,
followed by the 12-byte address block. -/
def encodeIPv4 (ep : Endpoints) : List Nat :=
  mkFixedHeader 0x21 0x11 12 ++
    ep.sourceIP ++ ep.destinationIP ++
    be16Bytes ep.sourcePort ++ be16Bytes ep.destinationPort

/-- Encode IPv6 endpoints as a full PPv2 preamble: fixed header with
version 2, command PROXY, family IPv6, protocol STREAM, length 36,
followed by the 36-byte address block. -/
def encodeIPv6 (ep : Endpoints) : List Nat :=
  mkFixedHeader 0x21 0x21 36 ++
    ep.sourceIP ++ ep.destinationIP ++
    be16Bytes ep.sourcePort ++ be16Bytes ep.destinationPort

/-! ## Helper lemmas -/

lemma zip_all_eq_iff {l₁ l₂ : List Nat} (h : l₁.length = l₂.length) :
    ((l₁.zip l₂).all fun p => p.1 == p.2) = true ↔ l₁ = l₂ := by
  induction l₁ generalizing l₂ with
  | nil =>
    cases l₂ with
    | nil => simp
    | cons b tl => simp at h
  | cons a tl ih =>
    cases l₂ with
    | nil => simp at h
    | cons b tl₂ =>
      simp only [List.zip_cons_cons, List.all_cons, Bool.and_eq_true, beq_iff_eq,
        List.cons.injEq]
      rw [ih (by simpa using h)]

/-- `checkSignature` succeeds exactly on the signature constant itself. -/
lemma checkSignature_eq_true_iff (sig : List Nat) :
    checkSignature sig = true ↔ sig = ppv2Signature := by
  unfold checkSignature
  split
  · rename_i hne
    constructor
    · intro hf
      exact absurd hf (by simp)
    · intro he
      exact absurd (he ▸ rfl) hne
  · rename_i hne
    exact zip_all_eq_iff (by omega)

lemma readFull_ok {c : Conn} {n : Nat} (h : n ≤ c.data.length) :
    readFull c n = .ok (c.data.take n, ⟨c.data.drop n, c.terminal⟩) := by
  unfold readFull
  rw [if_pos h]

lemma readFull_error {c : Conn} {n : Nat} (h : c.data.length < n) :
    readFull c n = .error c.terminal := by
  unfold readFull
  rw [if_neg (by omega)]

lemma getD_take_of_lt (l : List Nat) {i n : Nat} (h : i < n) :
    (l.take n).getD i 0 = l.getD i 0 := by
  simp [List.getD_eq_getElem?_getD, List.getElem?_take_of_lt h]

/-- Reduction of `handle` on a stream whose first 16 bytes are the valid
signature followed by the four trailer bytes of the fixed header. -/
lemma handle_structured (vc fp l1 l2 : Nat) (tail : List Nat) (t : ReadErr) :
    handle ⟨ppv2Signature ++ [vc, fp, l1, l2] ++ tail, t⟩ =
      if vc / 16 ≠ 2 then .error (.unsupportedVersion (vc / 16))
      else if vc % 16 ≠ 1 then .error (.unsupportedCommand (vc % 16))
      else
        match readFull ⟨tail, t⟩ (be16 l1 l2) with
        | .error e => .error (.addressRead e)
        | .ok (addrBlock, raw2) => decodeAddress (fp / 16) addrBlock raw2 := by
  have hlen : (ppv2Signature ++ [vc, fp, l1, l2]).length = 16 := by
    simp [ppv2Signature]
  have hread : readFull ⟨ppv2Signature ++ [vc, fp, l1, l2] ++ tail, t⟩ 16 =
      .ok (ppv2Signature ++ [vc, fp, l1, l2], ⟨tail, t⟩) := by
    rw [readFull_ok (by simp [ppv2Signature])]
    rw [show ((ppv2Signature ++ [vc, fp, l1, l2] ++ tail) : List Nat).take 16 =
          ppv2Signature ++ [vc, fp, l1, l2] from List.take_left' hlen]
    rw [show ((ppv2Signature ++ [vc, fp, l1, l2] ++ tail) : List Nat).drop 16 =
          tail from List.drop_left' hlen]
  have htake12 : (ppv2Signature ++ [vc, fp, l1, l2]).take 12 = ppv2Signature :=
    List.take_left' rfl
  have hsig : checkSignature ((ppv2Signature ++ [vc, fp, l1, l2]).take 12) = true := by
    rw [htake12]
    rfl
  have h12 : (ppv2Signature ++ [vc, fp, l1, l2]).getD 12 0 = vc := by
    rw [List.getD_append_right _ _ _ _ (by simp [ppv2Signature])]
    simp [ppv2Signature]
  have h13 : (ppv2Signature ++ [vc, fp, l1, l2]).getD 13 0 = fp := by
    rw [List.getD_append_right _ _ _ _ (by simp [ppv2Signature])]
    simp [ppv2Signature]
  have h14 : (ppv2Signature ++ [vc, fp, l1, l2]).getD 14 0 = l1 := by
    rw [List.getD_append_right _ _ _ _ (by simp [ppv2Signature])]
    simp [ppv2Signature]
  have h15 : (ppv2Signature ++ [vc, fp, l1, l2]).getD 15 0 = l2 := by
    rw [List.getD_append_right _ _ _ _ (by simp [ppv2Signature])]
    simp [ppv2Signature]
  unfold handle
  rw [hread]
  simp only [hsig, Bool.not_true, h12, h13, h14, h15, not_false_eq_true, if_false,
    not_true_eq_false, ite_false, ite_true]

/-- Anything `handle` accepts has a well-formed preamble: at least 16 bytes,
the exact signature, version nibble 2, command nibble 1, a known family
nibble, a fully delivered address block, and the output stream positioned
exactly `16 + address_length` bytes into the input. -/
lemma handle_ok_inv {c : Conn} {ep : Endpoints} {c' : Conn}
    (h : handle c = .ok (ep, c')) :
    16 ≤ c.data.length ∧
    c.data.take 12 = ppv2Signature ∧
    c.data.getD 12 0 / 16 = 2 ∧
    c.data.getD 12 0 % 16 = 1 ∧
    (c.data.getD 13 0 / 16 = 1 ∨ c.data.getD 13 0 / 16 = 2) ∧
    16 + be16 (c.data.getD 14 0) (c.data.getD 15 0) ≤ c.data.length ∧
    c' = ⟨c.data.drop (16 + be16 (c.data.getD 14 0) (c.data.getD 15 0)), c.terminal⟩ := by
  unfold handle at h
  by_cases h16 : 16 ≤ c.data.length
  case neg =>
    rw [readFull_error (by omega)] at h
    simp at h
  case pos =>
  rw [readFull_ok h16] at h
  simp only [] at h
  rw [List.take_take, show min 12 16 = 12 by norm_num] at h
  rw [getD_take_of_lt _ (show 12 < 16 by norm_num),
    getD_take_of_lt _ (show 13 < 16 by norm_num),
    getD_take_of_lt _ (show 14 < 16 by norm_num),
    getD_take_of_lt _ (show 15 < 16 by norm_num)] at h
  split at h
  · simp at h
  rename_i hsig
  rw [not_not] at hsig
  have hsig' : c.data.take 12 = ppv2Signature :=
    (checkSignature_eq_true_iff _).mp (by simpa using hsig)
  split at h
  · simp at h
  rename_i hver
  rw [not_not] at hver
  split at h
  · simp at h
  rename_i hcmd
  rw [not_not] at hcmd
  by_cases hA : be16 (c.data.getD 14 0) (c.data.getD 15 0) ≤ (c.data.drop 16).length
  case neg =>
    rw [readFull_error (by dsimp only; omega)] at h
    simp at h
  case pos =>
  rw [readFull_ok (by dsimp only; omega : be16 (c.data.getD 14 0) (c.data.getD 15 0) ≤
    (Conn.mk (c.data.drop 16) c.terminal).data.length)] at h
  simp only [] at h
  have hA' : 16 + be16 (c.data.getD 14 0) (c.data.getD 15 0) ≤ c.data.length := by
    rw [List.length_drop] at hA
    omega
  rw [List.drop_drop, show ∀ n, 16 + n = n + 16 from fun n => Nat.add_comm 16 n] at h
  unfold decodeAddress at h
  split at h
  · rename_i hfam1
    split at h
    · simp at h
    · simp only [Except.ok.injEq, Prod.mk.injEq] at h
      exact ⟨h16, hsig', hver, hcmd, Or.inl hfam1, hA',
        by rw [Nat.add_comm]; exact h.2.symm⟩
  split at h
  · rename_i hfam2
    split at h
    · simp at h
    · simp only [Except.ok.injEq, Prod.mk.injEq] at h
      exact ⟨h16, hsig', hver, hcmd, Or.inr hfam2, hA',
        by rw [Nat.add_comm]; exact h.2.symm⟩
  · simp at h

/-! ## Claims -/

/-- Claim C2: feeding the processor the exact 28-byte stream — the 12
signature bytes, 0x21 (version 2, command PROXY), 0x11 (IPv4, protocol 1),
big-endian length 12, then address bytes 123.123.123.123, 8.8.8.8, ports
8080 and 80 — yields a successful decode with source 123.123.123.123:8080
and destination 8.8.8.8:80, consuming the whole stream. -/
theorem c2_end_to_end_scenario :
    handle ⟨[0x0D, 0x0A, 0x0D, 0x0A, 0x00, 0x0D, 0x0A, 0x51, 0x52, 0x4F, 0x54, 0x0A,
             0x21, 0x11, 0x00, 0x0C,
             0x7B, 0x7B, 0x7B, 0x7B, 0x08, 0x08, 0x08, 0x08,
             0x1F, 0x90, 0x00, 0x50], .eof⟩ =
      .ok (⟨[123, 123, 123, 123], [8, 8, 8, 8], 8080, 80⟩, ⟨[], .eof⟩) := rfl

/-- Claim C3: `checkSignature` returns `true` exactly on the 12-byte
signature constant, byte for byte; any other input — in particular any
input of a different length — returns `false` (the function is a total
Lean definition, hence pure, deterministic and crash-free). -/
theorem c3_checkSignature_characterization (sig : List Nat) :
    (checkSignature sig = true ↔ sig = ppv2Signature) ∧
    (sig.length ≠ 12 → checkSignature sig = false) := by
  refine ⟨checkSignature_eq_true_iff sig, fun hne => ?_⟩
  cases hcs : checkSignature sig
  · rfl
  · have hs := (checkSignature_eq_true_iff sig).mp hcs
    exact absurd (by rw [hs]; rfl) hne

theorem c3_witness :
    checkSignature [0x0D, 0x0A, 0x0D, 0x0A, 0x00, 0x0D, 0x0A, 0x51, 0x52, 0x4F, 0x54, 0x0A]
        = true ∧
    checkSignature [0x0D, 0x0A] = false :=
  ⟨(c3_checkSignature_characterization _).1.mpr rfl,
   (c3_checkSignature_characterization [0x0D, 0x0A]).2 (by decide)⟩

/-- Claim C8: a stream that ends (EOF) after delivering fewer than 16
bytes makes the processor fail with the incomplete-header error
(`headerRead .eof`) and produce no `Endpoints`; `handle` is a total
function, so no panic or out-of-bounds read is possible. -/
theorem c8_incomplete_header (c : Conn) (hshort : c.data.length < 16)
    (heof : c.terminal = .eof) :
    handle c = .error (.headerRead .eof) := by
  unfold handle
  rw [readFull_error hshort, heof]

theorem c8_witness :
    handle ⟨[0x0D, 0x0A, 0x0D, 0x0A, 0x00, 0x0D, 0x0A, 0x51, 0x52, 0x4F], .eof⟩ =
      .error (.headerRead .eof) :=
  c8_incomplete_header _ (by decide) rfl

/-- Claim C7: a read deadline expiring while awaiting the 16-byte fixed
header (or the address block) surfaces as a timeout error, which is a
distinct value, discriminable from the incomplete-header error
(`headerRead .eof`) and from the incomplete-address-block error
(`addressRead .eof`). -/
theorem c7_timeout_discriminable :
    (∀ c : Conn, c.data.length < 16 → c.terminal = .timeout →
        handle c = .error (.headerRead .timeout)) ∧
    (∀ (vc fp l1 l2 : Nat) (tail : List Nat),
        vc / 16 = 2 → vc % 16 = 1 → tail.length < be16 l1 l2 →
        handle ⟨ppv2Signature ++ [vc, fp, l1, l2] ++ tail, .timeout⟩ =
          .error (.addressRead .timeout)) ∧
    DecodeError.headerRead .timeout ≠ DecodeError.headerRead .eof ∧
    DecodeError.headerRead .timeout ≠ DecodeError.addressRead .eof ∧
    DecodeError.addressRead .timeout ≠ DecodeError.addressRead .eof ∧
    DecodeError.addressRead .timeout ≠ DecodeError.headerRead .eof := by
  refine ⟨?_, ?_, by decide, by decide, by decide, by decide⟩
  · intro c hlen ht
    unfold handle
    rw [readFull_error hlen, ht]
  · intro vc fp l1 l2 tail hv hc hlen
    rw [handle_structured, readFull_error (c := ⟨tail, .timeout⟩) hlen]
    simp [hv, hc]

theorem c7_witness :
    handle ⟨[0x0D, 0x0A], .timeout⟩ = .error (.headerRead .timeout) :=
  c7_timeout_discriminable.1 ⟨[0x0D, 0x0A], .timeout⟩ (by decide) rfl

/-- Claim C4: `Endpoints` are produced only when the decoded header has
version nibble 2, command nibble 1 (PROXY) and family nibble 1 or 2; a
family nibble outside that set never yields `Endpoints`, and — once the
address block is fully delivered — is rejected with the
unknown-address-family error. -/
theorem c4_endpoints_require_valid_header :
    (∀ (c : Conn) (ep : Endpoints) (c' : Conn), handle c = .ok (ep, c') →
        c.data.getD 12 0 / 16 = 2 ∧ c.data.getD 12 0 % 16 = 1 ∧
        (c.data.getD 13 0 / 16 = 1 ∨ c.data.getD 13 0 / 16 = 2)) ∧
    (∀ (vc fp l1 l2 : Nat) (tail : List Nat) (t : ReadErr),
        vc / 16 = 2 → vc % 16 = 1 → fp / 16 ≠ 1 → fp / 16 ≠ 2 →
        be16 l1 l2 ≤ tail.length →
        handle ⟨ppv2Signature ++ [vc, fp, l1, l2] ++ tail, t⟩ =
          .error (.unknownFamily (fp / 16))) := by
  constructor
  · intro c ep c' h
    obtain ⟨-, -, hv, hc, hf, -, -⟩ := handle_ok_inv h
    exact ⟨hv, hc, hf⟩
  · intro vc fp l1 l2 tail t hv hc hf1 hf2 hlen
    rw [handle_structured, readFull_ok (c := ⟨tail, t⟩) hlen]
    simp [hv, hc, decodeAddress, hf1, hf2]

theorem c4_witness :
    handle ⟨ppv2Signature ++ [0x21, 0x31, 0, 0] ++ [], .eof⟩ =
      .error (.unknownFamily 3) := by
  have h := c4_endpoints_require_valid_header.2 0x21 0x31 0 0 [] .eof
      (by norm_num) (by norm_num) (by norm_num) (by norm_num) (by decide)
  simpa using h

/-- Claim C9: on every successful decode, exactly `16 + address_length`
bytes are consumed from the stream: those bytes were all available, and
the stream handed back with the endpoints is the input stream advanced by
exactly that amount — its next byte is the first byte of application
payload. -/
theorem c9_consumes_exactly_the_preamble (c : Conn) (ep : Endpoints) (c' : Conn)
    (h : handle c = .ok (ep, c')) :
    16 + be16 (c.data.getD 14 0) (c.data.getD 15 0) ≤ c.data.length ∧
    c' = ⟨c.data.drop (16 + be16 (c.data.getD 14 0) (c.data.getD 15 0)), c.terminal⟩ := by
  obtain ⟨-, -, -, -, -, h1, h2⟩ := handle_ok_inv h
  exact ⟨h1, h2⟩

theorem c9_witness :
    16 + be16 0 12 ≤ 29 ∧
    (⟨[0xAA], ReadErr.eof⟩ : Conn) =
      ⟨([0x0D, 0x0A, 0x0D, 0x0A, 0x00, 0x0D, 0x0A, 0x51, 0x52, 0x4F, 0x54, 0x0A,
         0x21, 0x11, 0x00, 0x0C,
         0x7B, 0x7B, 0x7B, 0x7B, 0x08, 0x08, 0x08, 0x08,
         0x1F, 0x90, 0x00, 0x50, 0xAA] : List Nat).drop (16 + be16 0 12),
       ReadErr.eof⟩ := by
  have h := c9_consumes_exactly_the_preamble
      ⟨[0x0D, 0x0A, 0x0D, 0x0A, 0x00, 0x0D, 0x0A, 0x51, 0x52, 0x4F, 0x54, 0x0A,
        0x21, 0x11, 0x00, 0x0C,
        0x7B, 0x7B, 0x7B, 0x7B, 0x08, 0x08, 0x08, 0x08,
        0x1F, 0x90, 0x00, 0x50, 0xAA], .eof⟩
      ⟨[123, 123, 123, 123], [8, 8, 8, 8], 8080, 80⟩ ⟨[0xAA], .eof⟩ rfl
  simpa using h

/-- Claim C5: with a valid signature, version 2 and command PROXY, a
declared `address_length` below the family's fixed minimum (12 for IPv4,
36 for IPv6) fails with the truncated-address-block error and produces no
`Endpoints`, even when the stream delivers all `address_length` declared
bytes. -/
theorem c5_truncated_address_block (vc fp l1 l2 : Nat) (tail : List Nat) (t : ReadErr)
    (hv : vc / 16 = 2) (hc : vc % 16 = 1)
    (hdeliver : be16 l1 l2 ≤ tail.length)
    (hshort : (fp / 16 = 1 ∧ be16 l1 l2 < 12) ∨ (fp / 16 = 2 ∧ be16 l1 l2 < 36)) :
    handle ⟨ppv2Signature ++ [vc, fp, l1, l2] ++ tail, t⟩ =
      .error (.truncatedAddress (fp / 16)) := by
  rw [handle_structured, readFull_ok (c := ⟨tail, t⟩) hdeliver]
  have hlen : (tail.take (be16 l1 l2)).length = be16 l1 l2 := by
    rw [List.length_take]
    omega
  rcases hshort with ⟨hf, hA⟩ | ⟨hf, hA⟩
  · simp [hv, hc, decodeAddress, hf, hlen, hA]
  · simp [hv, hc, decodeAddress, hf, hlen, hA]

theorem c5_witness :
    handle ⟨ppv2Signature ++ [0x21, 0x11, 0, 8] ++ [1, 2, 3, 4, 5, 6, 7, 8], .eof⟩ =
      .error (.truncatedAddress 1) := by
  have h := c5_truncated_address_block 0x21 0x11 0 8 [1, 2, 3, 4, 5, 6, 7, 8] .eof
      (by norm_num) (by norm_num) (by decide) (Or.inl ⟨by norm_num, by decide⟩)
  simpa using h

/-- Claim C6: any 16-byte header whose first 12 bytes differ from the
signature constant in at least one position (in particular by a single
flipped bit) is rejected with the signature-mismatch error, regardless of
the remaining 4 header bytes and of any further stream content. -/
theorem c6_signature_mismatch_rejected (sig b4 rest : List Nat) (t : ReadErr)
    (hlen : sig.length = 12) (hne : sig ≠ ppv2Signature) (hb4 : b4.length = 4) :
    handle ⟨sig ++ b4 ++ rest, t⟩ = .error .signatureMismatch := by
  have h16 : (sig ++ b4).length = 16 := by simp [hlen, hb4]
  have hcs : checkSignature ((sig ++ b4).take 12) = false := by
    rw [List.take_left' hlen]
    cases hcs : checkSignature sig
    · rfl
    · exact absurd ((checkSignature_eq_true_iff sig).mp hcs) hne
  unfold handle
  rw [readFull_ok (show 16 ≤ ((sig ++ b4) ++ rest).length by simp [hlen, hb4]; omega),
    List.take_left' h16]
  simp [hcs]

theorem c6_witness :
    handle ⟨[0x0C, 0x0A, 0x0D, 0x0A, 0x00, 0x0D, 0x0A, 0x51, 0x52, 0x4F, 0x54, 0x0A] ++
      [0x21, 0x11, 0x00, 0x0C] ++ [], .eof⟩ = .error .signatureMismatch :=
  c6_signature_mismatch_rejected
    [0x0C, 0x0A, 0x0D, 0x0A, 0x00, 0x0D, 0x0A, 0x51, 0x52, 0x4F, 0x54, 0x0A]
    [0x21, 0x11, 0x00, 0x0C] [] .eof (by decide) (by decide) (by decide)

/-- Claim C1: under a valid fixed header (version 2, command PROXY), an
IPv4 address block of exactly 12 bytes decodes positionally — source IP
from bytes 0–3, destination IP from bytes 4–7, source port big-endian
from bytes 8–9, destination port big-endian from bytes 10–11 — and an
IPv6 block of exactly 36 bytes decodes as 16+16+2+2; consequently
encoding endpoints and decoding them is the identity. -/
theorem c1_address_block_decode_roundtrip :
    (∀ (vc fp : Nat) (b rest : List Nat) (t : ReadErr),
        vc / 16 = 2 → vc % 16 = 1 → fp / 16 = 1 → b.length = 12 →
        handle ⟨ppv2Signature ++ [vc, fp, 0, 12] ++ (b ++ rest), t⟩ =
          .ok (⟨b.take 4, (b.drop 4).take 4,
                be16 (b.getD 8 0) (b.getD 9 0),
                be16 (b.getD 10 0) (b.getD 11 0)⟩, ⟨rest, t⟩)) ∧
    (∀ (vc fp : Nat) (b rest : List Nat) (t : ReadErr),
        vc / 16 = 2 → vc % 16 = 1 → fp / 16 = 2 → b.length = 36 →
        handle ⟨ppv2Signature ++ [vc, fp, 0, 36] ++ (b ++ rest), t⟩ =
          .ok (⟨b.take 16, (b.drop 16).take 16,
                be16 (b.getD 32 0) (b.getD 33 0),
                be16 (b.getD 34 0) (b.getD 35 0)⟩, ⟨rest, t⟩)) ∧
    (∀ (ep : Endpoints) (rest : List Nat) (t : ReadErr),
        ep.sourceIP.length = 4 → ep.destinationIP.length = 4 →
        ep.sourcePort < 65536 → ep.destinationPort < 65536 →
        handle ⟨encodeIPv4 ep ++ rest, t⟩ = .ok (ep, ⟨rest, t⟩)) ∧
    (∀ (ep : Endpoints) (rest : List Nat) (t : ReadErr),
        ep.sourceIP.length = 16 → ep.destinationIP.length = 16 →
        ep.sourcePort < 65536 → ep.destinationPort < 65536 →
        handle ⟨encodeIPv6 ep ++ rest, t⟩ = .ok (ep, ⟨rest, t⟩)) := by
  have p1 : ∀ (vc fp : Nat) (b rest : List Nat) (t : ReadErr),
      vc / 16 = 2 → vc % 16 = 1 → fp / 16 = 1 → b.length = 12 →
      handle ⟨ppv2Signature ++ [vc, fp, 0, 12] ++ (b ++ rest), t⟩ =
        .ok (⟨b.take 4, (b.drop 4).take 4,
              be16 (b.getD 8 0) (b.getD 9 0),
              be16 (b.getD 10 0) (b.getD 11 0)⟩, ⟨rest, t⟩) := by
    intro vc fp b rest t hv hc hf hb
    rw [handle_structured]
    rw [show be16 0 12 = 12 by norm_num [be16]]
    rw [readFull_ok (c := ⟨b ++ rest, t⟩) (by simp [hb])]
    rw [List.take_left' hb, List.drop_left' hb]
    simp [hv, hc, hf, decodeAddress, hb]
  have p2 : ∀ (vc fp : Nat) (b rest : List Nat) (t : ReadErr),
      vc / 16 = 2 → vc % 16 = 1 → fp / 16 = 2 → b.length = 36 →
      handle ⟨ppv2Signature ++ [vc, fp, 0, 36] ++ (b ++ rest), t⟩ =
        .ok (⟨b.take 16, (b.drop 16).take 16,
              be16 (b.getD 32 0) (b.getD 33 0),
              be16 (b.getD 34 0) (b.getD 35 0)⟩, ⟨rest, t⟩) := by
    intro vc fp b rest t hv hc hf hb
    rw [handle_structured]
    rw [show be16 0 36 = 36 by norm_num [be16]]
    rw [readFull_ok (c := ⟨b ++ rest, t⟩) (by simp [hb])]
    rw [List.take_left' hb, List.drop_left' hb]
    simp [hv, hc, hf, decodeAddress, hb]
  refine ⟨p1, p2, ?_, ?_⟩
  · intro ep rest t hs hd hsp hdp
    obtain ⟨src, dst, sp, dp⟩ := ep
    simp only [] at hs hd hsp hdp
    have hb : (src ++ dst ++ [sp / 256, sp % 256, dp / 256, dp % 256]).length = 12 := by
      simp [hs, hd]
    have h := p1 0x21 0x11 (src ++ dst ++ [sp / 256, sp % 256, dp / 256, dp % 256])
        rest t (by norm_num) (by norm_num) (by norm_num) hb
    rw [show (encodeIPv4 ⟨src, dst, sp, dp⟩ ++ rest : List Nat) =
        ppv2Signature ++ [0x21, 0x11, 0, 12] ++
          ((src ++ dst ++ [sp / 256, sp % 256, dp / 256, dp % 256]) ++ rest) from by
      simp [encodeIPv4, mkFixedHeader, be16Bytes]]
    rw [h]
    have et1 : (src ++ dst ++ [sp / 256, sp % 256, dp / 256, dp % 256]).take 4 = src := by
      rw [List.append_assoc, List.take_left' hs]
    have et2 : ((src ++ dst ++ [sp / 256, sp % 256, dp / 256, dp % 256]).drop 4).take 4
        = dst := by
      rw [List.append_assoc, List.drop_left' hs, List.take_left' hd]
    have e8 : (src ++ dst ++ [sp / 256, sp % 256, dp / 256, dp % 256]).getD 8 0
        = sp / 256 := by
      rw [List.append_assoc, List.getD_append_right _ _ _ _ (by omega),
        List.getD_append_right _ _ _ _ (by omega), hs, hd]
      simp
    have e9 : (src ++ dst ++ [sp / 256, sp % 256, dp / 256, dp % 256]).getD 9 0
        = sp % 256 := by
      rw [List.append_assoc, List.getD_append_right _ _ _ _ (by omega),
        List.getD_append_right _ _ _ _ (by omega), hs, hd]
      simp
    have e10 : (src ++ dst ++ [sp / 256, sp % 256, dp / 256, dp % 256]).getD 10 0
        = dp / 256 := by
      rw [List.append_assoc, List.getD_append_right _ _ _ _ (by omega),
        List.getD_append_right _ _ _ _ (by omega), hs, hd]
      simp
    have e11 : (src ++ dst ++ [sp / 256, sp % 256, dp / 256, dp % 256]).getD 11 0
        = dp % 256 := by
      rw [List.append_assoc, List.getD_append_right _ _ _ _ (by omega),
        List.getD_append_right _ _ _ _ (by omega), hs, hd]
      simp
    rw [et1, et2, e8, e9, e10, e11]
    have hsp' : be16 (sp / 256) (sp % 256) = sp := by
      unfold be16
      omega
    have hdp' : be16 (dp / 256) (dp % 256) = dp := by
      unfold be16
      omega
    rw [hsp', hdp']
  · intro ep rest t hs hd hsp hdp
    obtain ⟨src, dst, sp, dp⟩ := ep
    simp only [] at hs hd hsp hdp
    have hb : (src ++ dst ++ [sp / 256, sp % 256, dp / 256, dp % 256]).length = 36 := by
      simp [hs, hd]
    have h := p2 0x21 0x21 (src ++ dst ++ [sp / 256, sp % 256, dp / 256, dp % 256])
        rest t (by norm_num) (by norm_num) (by norm_num) hb
    rw [show (encodeIPv6 ⟨src, dst, sp, dp⟩ ++ rest : List Nat) =
        ppv2Signature ++ [0x21, 0x21, 0, 36] ++
          ((src ++ dst ++ [sp / 256, sp % 256, dp / 256, dp % 256]) ++ rest) from by
      simp [encodeIPv6, mkFixedHeader, be16Bytes]]
    rw [h]
    have et1 : (src ++ dst ++ [sp / 256, sp % 256, dp / 256, dp % 256]).take 16 = src := by
      rw [List.append_assoc, List.take_left' hs]
    have et2 : ((src ++ dst ++ [sp / 256, sp % 256, dp / 256, dp % 256]).drop 16).take 16
        = dst := by
      rw [List.append_assoc, List.drop_left' hs, List.take_left' hd]
    have e8 : (src ++ dst ++ [sp / 256, sp % 256, dp / 256, dp % 256]).getD 32 0
        = sp / 256 := by
      rw [List.append_assoc, List.getD_append_right _ _ _ _ (by omega),
        List.getD_append_right _ _ _ _ (by omega), hs, hd]
      simp
    have e9 : (src ++ dst ++ [sp / 256, sp % 256, dp / 256, dp % 256]).getD 33 0
        = sp % 256 := by
      rw [List.append_assoc, List.getD_append_right _ _ _ _ (by omega),
        List.getD_append_right _ _ _ _ (by omega), hs, hd]
      simp
    have e10 : (src ++ dst ++ [sp / 256, sp % 256, dp / 256, dp % 256]).getD 34 0
        = dp / 256 := by
      rw [List.append_assoc, List.getD_append_right _ _ _ _ (by omega),
        List.getD_append_right _ _ _ _ (by omega), hs, hd]
      simp
    have e11 : (src ++ dst ++ [sp / 256, sp % 256, dp / 256, dp % 256]).getD 35 0
        = dp % 256 := by
      rw [List.append_assoc, List.getD_append_right _ _ _ _ (by omega),
        List.getD_append_right _ _ _ _ (by omega), hs, hd]
      simp
    rw [et1, et2, e8, e9, e10, e11]
    have hsp' : be16 (sp / 256) (sp % 256) = sp := by
      unfold be16
      omega
    have hdp' : be16 (dp / 256) (dp % 256) = dp := by
      unfold be16
      omega
    rw [hsp', hdp']

theorem c1_witness :
    handle ⟨encodeIPv4 ⟨[10, 0, 0, 1], [10, 0, 0, 2], 80, 443⟩ ++ [0xFF], .eof⟩ =
      .ok (⟨[10, 0, 0, 1], [10, 0, 0, 2], 80, 443⟩, ⟨[0xFF], .eof⟩) :=
  c1_address_block_decode_roundtrip.2.2.1 ⟨[10, 0, 0, 1], [10, 0, 0, 2], 80, 443⟩
    [0xFF] .eof (by decide) (by decide) (by decide) (by decide)

/-- Claim C10: with a valid header of family IPv4 (resp. IPv6) whose
declared `address_length` exceeds 12 (resp. 36) and a stream delivering
all declared bytes, decoding still succeeds; the whole declared block is
consumed (the returned stream starts right after it, at `rest`), while the
endpoints are computed from the first 12 (resp. 36) block bytes only —
the surplus bytes are read and ignored. -/
theorem c10_oversized_address_block :
    (∀ (vc fp l1 l2 : Nat) (b rest : List Nat) (t : ReadErr),
        vc / 16 = 2 → vc % 16 = 1 → fp / 16 = 1 →
        b.length = be16 l1 l2 → 12 < be16 l1 l2 →
        handle ⟨ppv2Signature ++ [vc, fp, l1, l2] ++ (b ++ rest), t⟩ =
          .ok (⟨(b.take 12).take 4, ((b.take 12).drop 4).take 4,
                be16 ((b.take 12).getD 8 0) ((b.take 12).getD 9 0),
                be16 ((b.take 12).getD 10 0) ((b.take 12).getD 11 0)⟩,
               ⟨rest, t⟩)) ∧
    (∀ (vc fp l1 l2 : Nat) (b rest : List Nat) (t : ReadErr),
        vc / 16 = 2 → vc % 16 = 1 → fp / 16 = 2 →
        b.length = be16 l1 l2 → 36 < be16 l1 l2 →
        handle ⟨ppv2Signature ++ [vc, fp, l1, l2] ++ (b ++ rest), t⟩ =
          .ok (⟨(b.take 36).take 16, ((b.take 36).drop 16).take 16,
                be16 ((b.take 36).getD 32 0) ((b.take 36).getD 33 0),
                be16 ((b.take 36).getD 34 0) ((b.take 36).getD 35 0)⟩,
               ⟨rest, t⟩)) := by
  constructor
  · intro vc fp l1 l2 b rest t hv hc hf hb hgt
    rw [handle_structured, readFull_ok (c := ⟨b ++ rest, t⟩) (by simp [hb])]
    rw [List.take_left' hb, List.drop_left' hb]
    have hnot : ¬ b.length < 12 := by omega
    have t1 : (b.take 12).take 4 = b.take 4 := by
      rw [List.take_take]
      norm_num
    have t2 : ((b.take 12).drop 4).take 4 = (b.drop 4).take 4 := by
      rw [List.drop_take, List.take_take]
      norm_num
    have g8 : (b.take 12).getD 8 0 = b.getD 8 0 := getD_take_of_lt b (by norm_num)
    have g9 : (b.take 12).getD 9 0 = b.getD 9 0 := getD_take_of_lt b (by norm_num)
    have g10 : (b.take 12).getD 10 0 = b.getD 10 0 := getD_take_of_lt b (by norm_num)
    have g11 : (b.take 12).getD 11 0 = b.getD 11 0 := getD_take_of_lt b (by norm_num)
    simp [hv, hc, hf, decodeAddress, hnot, t1, t2, g8, g9, g10, g11]
  · intro vc fp l1 l2 b rest t hv hc hf hb hgt
    rw [handle_structured, readFull_ok (c := ⟨b ++ rest, t⟩) (by simp [hb])]
    rw [List.take_left' hb, List.drop_left' hb]
    have hnot : ¬ b.length < 36 := by omega
    have t1 : (b.take 36).take 16 = b.take 16 := by
      rw [List.take_take]
      norm_num
    have t2 : ((b.take 36).drop 16).take 16 = (b.drop 16).take 16 := by
      rw [List.drop_take, List.take_take]
      norm_num
    have g8 : (b.take 36).getD 32 0 = b.getD 32 0 := getD_take_of_lt b (by norm_num)
    have g9 : (b.take 36).getD 33 0 = b.getD 33 0 := getD_take_of_lt b (by norm_num)
    have g10 : (b.take 36).getD 34 0 = b.getD 34 0 := getD_take_of_lt b (by norm_num)
    have g11 : (b.take 36).getD 35 0 = b.getD 35 0 := getD_take_of_lt b (by norm_num)
    simp [hv, hc, hf, decodeAddress, hnot, t1, t2, g8, g9, g10, g11]

theorem c10_witness :
    handle ⟨ppv2Signature ++ [0x21, 0x11, 0, 15] ++
      ([1, 2, 3, 4, 5, 6, 7, 8, 0, 80, 0, 90, 0xEE, 0xEE, 0xEE] ++ [0x99]), .eof⟩ =
      .ok (⟨[1, 2, 3, 4], [5, 6, 7, 8], 80, 90⟩, ⟨[0x99], .eof⟩) := by
  have h := c10_oversized_address_block.1 0x21 0x11 0 15
      [1, 2, 3, 4, 5, 6, 7, 8, 0, 80, 0, 90, 0xEE, 0xEE, 0xEE] [0x99] .eof
      (by norm_num) (by norm_num) (by norm_num) (by decide) (by decide)
  simpa [be16] using h
